import Mathlib

/-!
Shallow embedding of `shanzhai_tf::Notifier`
(src/shanzhai_taskflow/taskflow/core/notifier.hpp) and verification of the
specification's claims about it.

The 64-bit state word `state_` is modelled as a `Nat` together with explicit
`% 2^64` wherever the C++ `uint64_t` arithmetic can wrap.  Bit fields are
contiguous, so the mask/shift expressions of the source are rendered with
division and remainder by powers of two:
  * `s & kStackMask`                      = `s % 2^16`
  * `(s & kWaiterMask) >> kWaiterShift`   = `s / 2^16 % 2^16`
  * `s & kEpochMask`                      = `s / 2^32 % 2^32 * 2^32`
  * `s & ~kStackMask`                     = `s / 2^16 * 2^16`
Each waiter cell (`Waiter`) carries its `next_` link (an optional index into
the waiter array), its `state_` signal word and its `epoch_` snapshot; the
sequential model keeps them as functions from indices.
-/

namespace Shanzhai

/-- Constant `kStackBits = 16`. -/
def kStackBits : Nat := 16

/-- Constant `kStackMask = (1ull << kStackBits) - 1`. -/
def kStackMask : Nat := 2 ^ 16 - 1

/-- Constant `kWaiterBits = 16`. -/
def kWaiterBits : Nat := 16

/-- Constant `kWaiterShift = 16`. -/
def kWaiterShift : Nat := 16

/-- Constant `kWaiterMask = ((1ull << kWaiterBits) - 1) << kWaiterShift`. -/
def kWaiterMask : Nat := (2 ^ 16 - 1) * 2 ^ 16

/-- Constant `kEpochBits = 32`. -/
def kEpochBits : Nat := 32

/-- Constant `kEpochShift = 32`. -/
def kEpochShift : Nat := 32

/-- Constant `kEpochMask = ((1ull << kEpochBits) - 1) << kEpochShift`. -/
def kEpochMask : Nat := (2 ^ 32 - 1) * 2 ^ 32

/-- Constant `kWaiterInc = 1ull << kWaiterBits`. -/
def kWaiterInc : Nat := 2 ^ 16

/-- Constant `kEpochInc = 1ull << kEpochShift`. -/
def kEpochInc : Nat := 2 ^ 32

/-- Signal word `Waiter::kNotSignaled`. -/
def kNotSignaled : Nat := 0

/-- Signal word `Waiter::kWaiting`. -/
def kWaiting : Nat := 1

/-- Signal word `Waiter::kSignaled`. -/
def kSignaled : Nat := 2

/-- The park-stack field of the state word: `state & kStackMask`. -/
def stackField (s : Nat) : Nat := s % 2 ^ 16

/-- The prepare-count field: `(state & kWaiterMask) >> kWaiterShift`. -/
def waiterCount (s : Nat) : Nat := s / 2 ^ 16 % 2 ^ 16

/-- The epoch field, shifted down: `(state & kEpochMask) >> kEpochShift`. -/
def epochField (s : Nat) : Nat := s / 2 ^ 32 % 2 ^ 32

/-- The epoch bits left in place: `state & kEpochMask`. -/
def epochMasked (s : Nat) : Nat := s / 2 ^ 32 % 2 ^ 32 * 2 ^ 32

/-- The 64-bit wrapping addition. -/
def add64 (a b : Nat) : Nat := (a + b) % 2 ^ 64

/-- The 64-bit wrapping subtraction (for `b ≤ 2^64`). -/
def sub64 (a b : Nat) : Nat := (a + (2 ^ 64 - b)) % 2 ^ 64

/-- Reinterpret a 64-bit unsigned value as a signed `int64_t`
(`static_cast<int64_t>(x)`). -/
def toInt64 (x : Nat) : Int := if x < 2 ^ 63 then (x : Int) else (x : Int) - 2 ^ 64

/-- Sequential model of the notifier together with the per-waiter cells:
`state` is the packed 64-bit `state_` word, `next i` is waiter `i`'s `next_`
link (an index, or `none` for `nullptr`), `sig i` is waiter `i`'s signal word
`Waiter::state_`, and `wepoch i` is waiter `i`'s `epoch_` snapshot. -/
structure NState where
  state : Nat
  next : Nat → Option Nat
  sig : Nat → Nat
  wepoch : Nat → Nat

/-- Model of `Notifier::PrepareWait`: record the current state word in the waiter's
`epoch_` snapshot and add `kWaiterInc` to the state word. -/
def PrepareWait (ns : NState) (wi : Nat) : NState :=
  { ns with
    wepoch := Function.update ns.wepoch wi ns.state,
    state := add64 ns.state kWaiterInc }

/-- The expected epoch computed by `CommitWait`/`CancelWait` from the waiter's
snapshot: `(epoch_ & kEpochMask) + (((epoch_ & kWaiterMask) >> kWaiterShift) << kEpochShift)`
(the sum wraps in `uint64_t`). -/
def expectedEpoch (we : Nat) : Nat :=
  (epochMasked we + we / 2 ^ 16 % 2 ^ 16 * 2 ^ 32) % 2 ^ 64

/-- Outcome of one pass of the `CommitWait` CAS loop in the sequential model:
`yield` is the stale-read branch that reloads and retries, `immediate` the
already-notified early return, `parked` the successful push onto the stack. -/
inductive CommitOutcome
  | yield
  | immediate
  | parked
deriving DecidableEq

/-- Model of `Notifier::CommitWait` (one sequential pass; the CAS succeeds).  The
signed comparison `static_cast<int64_t>((state & kEpochMask) - epoch)` selects
the branch.  On the parked branch the new word is
`state - kWaiterInc + kEpochInc` with its stack field replaced by the waiter's
index, the waiter's `next_` is set to the previous stack head (or null when the
stack field was the all-ones sentinel), and the waiter's signal word is left as
the park loop leaves it while blocked (`kWaiting`; line 101 first writes
`kNotSignaled`, the park loop then writes `kWaiting` before sleeping). -/
def CommitWait (ns : NState) (wi : Nat) : CommitOutcome × NState :=
  if toInt64 (sub64 (epochMasked ns.state) (expectedEpoch (ns.wepoch wi))) < 0 then
    (CommitOutcome.yield, { ns with sig := Function.update ns.sig wi kNotSignaled })
  else if 0 < toInt64 (sub64 (epochMasked ns.state) (expectedEpoch (ns.wepoch wi))) then
    (CommitOutcome.immediate, { ns with sig := Function.update ns.sig wi kNotSignaled })
  else
    (CommitOutcome.parked,
      { ns with
        state := add64 (sub64 ns.state kWaiterInc) kEpochInc / 2 ^ 16 * 2 ^ 16 + wi,
        next := Function.update ns.next wi
          (if stackField ns.state = kStackMask then none else some (stackField ns.state)),
        sig := Function.update ns.sig wi kWaiting })

/-- Outcome of one pass of the `CancelWait` CAS loop. -/
inductive CancelOutcome
  | yield
  | immediate
  | resolved
deriving DecidableEq

/-- Model of `Notifier::CancelWait` (one sequential pass; the CAS succeeds).  Same
branch structure as `CommitWait`; the resolving transition is
`state - kWaiterInc + kEpochInc` with no stack change. -/
def CancelWait (ns : NState) (wi : Nat) : CancelOutcome × NState :=
  if toInt64 (sub64 (epochMasked ns.state) (expectedEpoch (ns.wepoch wi))) < 0 then
    (CancelOutcome.yield, ns)
  else if 0 < toInt64 (sub64 (epochMasked ns.state) (expectedEpoch (ns.wepoch wi))) then
    (CancelOutcome.immediate, ns)
  else
    (CancelOutcome.resolved,
      { ns with state := add64 (sub64 ns.state kWaiterInc) kEpochInc })

/-- The iterator of the post-CAS signal loop of `Notifier::Notify`
(lines 199-211): `loopIter next w k` is the value of `iter` at the start of
iteration `k`.  The source re-reads `loop_next = w->next_.load(...)` from the
fixed popped head `w` on every iteration (not from `iter`), so whenever the
previous iterate was non-null the next iterate is `next w`. -/
def loopIter (next : Nat → Option Nat) (w : Nat) : Nat → Option Nat
  | 0 => some w
  | k + 1 => (loopIter next w k).bind (fun _ => next w)

/-- The waiters visited (and hence signaled) during the first `k` iterations
of the signal loop. -/
def loopVisits (next : Nat → Option Nat) (w : Nat) (k : Nat) : List Nat :=
  (List.range k).filterMap (loopIter next w)

/-- Total rendering of the signal loop of `Notifier::Notify`: `none` models
non-termination.  Since `loop_next` is re-read from the popped head `w` each
iteration, the iterator after the first step is pinned at `next w`; the loop
therefore performs exactly one iteration and exits when `next w = none`, and
otherwise never reaches a null iterate (see `loopIter_stuck`). -/
def signalLoop (next : Nat → Option Nat) (w : Nat) : Option (List Nat) :=
  match next w with
  | none => some [w]
  | some _ => none

/-- Apply the loop body's `iter->state_ = Waiter::kSignaled` to each visited
waiter. -/
def signalAll (sig : Nat → Nat) : List Nat → (Nat → Nat)
  | [] => sig
  | x :: xs => signalAll (Function.update sig x kSignaled) xs

/-- Model of `Notifier::Notify` (sequential: the CAS succeeds on the first pass).
Returns the new model state together with the list of waiters whose signal
word was set to `kSignaled`, or `none` when the signal loop does not
terminate.  Branches, in source order: the empty fast path (line 169), the
notify-all CAS (line 175), the prepared-waiter resolution (line 177), and the
park-stack pop (lines 179-185); after the CAS, `Notify(false)` with a popped
waiter nulls `w->next_` (line 196) before the signal loop. -/
def Notify (all : Bool) (ns : NState) : Option (NState × List Nat) :=
  if stackField ns.state = kStackMask ∧ waiterCount ns.state = 0 then
    some (ns, [])
  else if all then
    if stackField ns.state = kStackMask then
      some ({ ns with
              state := add64 (add64 (epochMasked ns.state)
                (kEpochInc * waiterCount ns.state)) kStackMask }, [])
    else
      match signalLoop ns.next (stackField ns.state) with
      | none => none
      | some visited =>
        some ({ ns with
                state := add64 (add64 (epochMasked ns.state)
                  (kEpochInc * waiterCount ns.state)) kStackMask,
                sig := signalAll ns.sig visited }, visited)
  else if 0 < waiterCount ns.state then
    some ({ ns with state := sub64 (add64 ns.state kEpochInc) kWaiterInc }, [])
  else
    match signalLoop (Function.update ns.next (stackField ns.state) none)
        (stackField ns.state) with
    | none => none
    | some visited =>
      some ({ ns with
              state := add64 (epochMasked ns.state)
                (match ns.next (stackField ns.state) with
                 | none => kStackMask
                 | some j => j),
              next := Function.update ns.next (stackField ns.state) none,
              sig := signalAll ns.sig visited }, visited)

/-- The `for (size_t i = 0; i < n; i++) this->Notify(false);` loop of
`Notifier::NotifyN`, threading the model state and accumulating the signaled
waiters. -/
def notifyNLoop : Nat → NState → Option (NState × List Nat)
  | 0, ns => some (ns, [])
  | k + 1, ns =>
    match Notify false ns with
    | none => none
    | some (ns1, s1) =>
      match notifyNLoop k ns1 with
      | none => none
      | some (ns2, s2) => some (ns2, s1 ++ s2)

/-- Model of `Notifier::NotifyN` for a notifier of capacity `N`
(`waiters_.size() = N`): `Notify(true)` when `n >= N`, otherwise `n` calls of
`Notify(false)`. -/
def NotifyN (N n : Nat) (ns : NState) : Option (NState × List Nat) :=
  if N ≤ n then Notify true ns else notifyNLoop n ns

/-- One call of `Notify(false)` applied to an accumulated run:
used to state what "calls `Notify(false)` exactly n times" means. -/
def stepFalse (r : Option (NState × List Nat)) : Option (NState × List Nat) :=
  match r with
  | none => none
  | some (ns, sigs) =>
    match Notify false ns with
    | none => none
    | some (ns1, s1) => some (ns1, sigs ++ s1)

/-- Modelled from the spec's words for the refinement claim about `NotifyN`:
"if n ≥ total capacity, equivalent to `Notify(true)`; otherwise calls
`Notify(false)` exactly n times". -/
def notifyNSpec (N n : Nat) (ns : NState) : Option (NState × List Nat) :=
  if N ≤ n then Notify true ns else stepFalse^[n] (some (ns, []))

/-- The constructor's capacity assertion:
`assert(waiters_.size() < ((1 << kWaiterBits)) - 1)`. -/
def ctorAssert (N : Nat) : Prop := N < 2 ^ 16 - 1

/-- The initial state word set by the constructor:
`kStackMask | (kEpochMask - kEpochInc * N * 2)`.  For every capacity passing
the constructor's assertion the subtrahend keeps the high 32 bits a valid
epoch and the low 32 bits zero, so the bitwise-or is a plain sum. -/
def initState (N : Nat) : Nat := kStackMask + (kEpochMask - kEpochInc * N * 2)

/-- The freshly constructed model state.  The C++ waiter cells are
default-constructed (their `next_`, `state_` and `epoch_` are indeterminate
until first written); the model picks null/zero. -/
def initNS (N : Nat) : NState :=
  { state := initState N,
    next := fun _ => none,
    sig := fun _ => kNotSignaled,
    wepoch := fun _ => 0 }

/-- The destructor's assertion:
`assert((state_.load() & (kStackMask | kWaiterMask)) == kStackMask)`;
the combined mask keeps the low 32 bits. -/
def dtorAssert (s : Nat) : Prop := s % 2 ^ 32 = kStackMask

/-- Model of `Notifier::GetWaiter` for a notifier of capacity `N`, returning the index
of the slot (`&waiters_[idx]`) or `none` for `nullptr`. -/
def GetWaiter (N idx : Nat) : Option Nat :=
  if idx < N then some idx else none

/-! ### Example configurations used by concrete theorems -/

/-- Example `next_` links for a three-node park chain `2 → 1 → 0`. -/
def exNext3 : Nat → Option Nat :=
  fun i => if i = 2 then some 1 else if i = 1 then some 0 else none

/-- Three waiters (indices 0, 1, 2) parked in that order: state word with
epoch 7, prepare-count 0, stack head 2, chain `2 → 1 → 0`. -/
def exNS3 : NState :=
  { state := 7 * 2 ^ 32 + 2,
    next := exNext3,
    sig := fun _ => kWaiting,
    wepoch := fun _ => 0 }

/-- Example `next_` links for a two-node park chain `1 → 0`. -/
def exNext2 : Nat → Option Nat := fun i => if i = 1 then some 0 else none

/-- Two waiters (indices 0, 1) parked in that order: state word with epoch 3,
prepare-count 0, stack head 1, chain `1 → 0`. -/
def exNS2 : NState :=
  { state := 3 * 2 ^ 32 + 1,
    next := exNext2,
    sig := fun _ => kWaiting,
    wepoch := fun _ => 0 }

/-- One waiter (index 0) parked: state word with epoch 5, prepare-count 0,
stack head 0, chain `0`. -/
def exNS1 : NState :=
  { state := 5 * 2 ^ 32,
    next := fun _ => none,
    sig := fun _ => kWaiting,
    wepoch := fun _ => 0 }

/-! ### Helper lemmas -/

/-- Projection of an explicit model state: the state word. -/
theorem NState_state_mk (a : Nat) (f : Nat → Option Nat) (g h : Nat → Nat) :
    (NState.mk a f g h).state = a := rfl

/-- Projection of an explicit model state: the `next_` links. -/
theorem NState_next_mk (a : Nat) (f : Nat → Option Nat) (g h : Nat → Nat) :
    (NState.mk a f g h).next = f := rfl

/-- Projection of an explicit model state: the signal words. -/
theorem NState_sig_mk (a : Nat) (f : Nat → Option Nat) (g h : Nat → Nat) :
    (NState.mk a f g h).sig = g := rfl

/-- Projection of an explicit model state: the `epoch_` snapshots. -/
theorem NState_wepoch_mk (a : Nat) (f : Nat → Option Nat) (g h : Nat → Nat) :
    (NState.mk a f g h).wepoch = h := rfl

/-- A 64-bit state word decomposes into its three fields. -/
theorem state_decomp (s : Nat) (hs : s < 2 ^ 64) :
    s = epochField s * 2 ^ 32 + waiterCount s * 2 ^ 16 + stackField s ∧
    epochField s < 2 ^ 32 ∧ waiterCount s < 2 ^ 16 ∧ stackField s < 2 ^ 16 := by
  unfold epochField waiterCount stackField
  omega

/-- When the popped head's `next_` link is non-null, every iterate of the
signal loop after the first equals that link: the loop variable is pinned
because `loop_next` is re-read from `w`, not from `iter`. -/
theorem loopIter_stuck (next : Nat → Option Nat) (w j : Nat) (h : next w = some j) :
    ∀ k, loopIter next w (k + 1) = some j := by
  intro k
  induction k with
  | zero => simp [loopIter, h]
  | succ m ih =>
      show (loopIter next w (m + 1)).bind (fun _ => next w) = some j
      rw [ih]
      simp [h]

/-- When the popped head's `next_` link is null, the signal loop exits after
one iteration. -/
theorem loopIter_done (next : Nat → Option Nat) (w : Nat) (h : next w = none) :
    loopIter next w 1 = none := by
  simp [loopIter, h]

/-- The wrap-safe strict order on epochs used by the implementation: the
64-bit difference of the in-place epoch bits, reinterpreted as `int64_t`, is
positive. -/
def epochAdvanced (old new : Nat) : Prop :=
  0 < toInt64 (sub64 (epochMasked new) (epochMasked old))

/-- The state word after a `Notify` call (0 when the call has no defined
result). -/
def stateAfter : Option (NState × List Nat) → Nat
  | none => 0
  | some p => p.1.state

/-- Waiter `i`'s signal word after a `Notify` call (0 when the call has no
defined result). -/
def sigAfter (r : Option (NState × List Nat)) (i : Nat) : Nat :=
  match r with
  | none => 0
  | some p => p.1.sig i

/-- All three resolving transitions write the same epoch field: one epoch
increment, wrapping at 32 bits. -/
theorem epochField_resolve (s wi : Nat)
    (hw : 0 < waiterCount s) (hwi : wi < 2 ^ 16) :
    epochField (add64 (sub64 s kWaiterInc) kEpochInc / 2 ^ 16 * 2 ^ 16 + wi) =
      (epochField s + 1) % 2 ^ 32 ∧
    epochField (add64 (sub64 s kWaiterInc) kEpochInc) = (epochField s + 1) % 2 ^ 32 ∧
    epochField (sub64 (add64 s kEpochInc) kWaiterInc) = (epochField s + 1) % 2 ^ 32 := by
  unfold waiterCount at hw
  unfold epochField add64 sub64 kWaiterInc kEpochInc
  omega

/-- A one-unit epoch-field increment is a strict advance in the wrap-safe
order. -/
theorem epochAdvanced_succ (s t : Nat) (h : epochField t = (epochField s + 1) % 2 ^ 32) :
    epochAdvanced s t := by
  have hv : sub64 (epochMasked t) (epochMasked s) = 2 ^ 32 := by
    unfold epochField at h
    unfold sub64 epochMasked
    omega
  unfold epochAdvanced
  rw [hv]
  unfold toInt64
  norm_num

/-- Branch characterization: `CommitWait` when the current epoch equals the
expected one (the signed difference is zero): the waiter parks. -/
theorem CommitWait_parked (ns : NState) (wi : Nat)
    (h : toInt64 (sub64 (epochMasked ns.state) (expectedEpoch (ns.wepoch wi))) = 0) :
    CommitWait ns wi =
      (CommitOutcome.parked,
        { ns with
          state := add64 (sub64 ns.state kWaiterInc) kEpochInc / 2 ^ 16 * 2 ^ 16 + wi,
          next := Function.update ns.next wi
            (if stackField ns.state = kStackMask then none
             else some (stackField ns.state)),
          sig := Function.update ns.sig wi kWaiting }) := by
  rw [CommitWait, h]
  rw [if_neg (lt_irrefl 0), if_neg (lt_irrefl 0)]

/-- Branch characterization: `CommitWait` when the current epoch is already
past the expected one: return immediately, state word untouched. -/
theorem CommitWait_immediate (ns : NState) (wi : Nat)
    (h : 0 < toInt64 (sub64 (epochMasked ns.state) (expectedEpoch (ns.wepoch wi)))) :
    CommitWait ns wi =
      (CommitOutcome.immediate,
        { ns with sig := Function.update ns.sig wi kNotSignaled }) := by
  rw [CommitWait]
  rw [if_neg (asymm h), if_pos h]

/-- Branch characterization: `CancelWait` when the current epoch equals the
expected one: the announcement is withdrawn. -/
theorem CancelWait_resolved (ns : NState) (wi : Nat)
    (h : toInt64 (sub64 (epochMasked ns.state) (expectedEpoch (ns.wepoch wi))) = 0) :
    CancelWait ns wi =
      (CancelOutcome.resolved,
        { ns with state := add64 (sub64 ns.state kWaiterInc) kEpochInc }) := by
  rw [CancelWait, h]
  rw [if_neg (lt_irrefl 0), if_neg (lt_irrefl 0)]

/-- Branch characterization: `Notify(false)` with at least one prepared
waiter resolves it by pure state-word arithmetic, signaling nobody. -/
theorem Notify_false_prepared (ns : NState) (h1 : 0 < waiterCount ns.state) :
    Notify false ns =
      some ({ ns with state := sub64 (add64 ns.state kEpochInc) kWaiterInc }, []) := by
  have hguard : ¬ (stackField ns.state = kStackMask ∧ waiterCount ns.state = 0) := by
    rintro ⟨-, h⟩
    omega
  rw [Notify]
  rw [if_neg hguard]
  rw [if_neg Bool.false_ne_true]
  rw [if_pos h1]

/-- Branch characterization: `Notify(false)` with no prepared waiter and a
non-empty park stack pops the head, nulls its `next_` link, signals exactly
it, and installs its link as the new stack field with the epoch bits kept. -/
theorem Notify_false_pop (ns : NState) (h0 : waiterCount ns.state = 0)
    (h2 : stackField ns.state ≠ kStackMask) :
    Notify false ns =
      some ({ ns with
              state := add64 (epochMasked ns.state)
                (match ns.next (stackField ns.state) with
                 | none => kStackMask
                 | some j => j),
              next := Function.update ns.next (stackField ns.state) none,
              sig := signalAll ns.sig [stackField ns.state] },
            [stackField ns.state]) := by
  have hguard : ¬ (stackField ns.state = kStackMask ∧ waiterCount ns.state = 0) :=
    fun hc => h2 hc.1
  have hw : ¬ 0 < waiterCount ns.state := by omega
  rw [Notify]
  rw [if_neg hguard]
  rw [if_neg Bool.false_ne_true]
  rw [if_neg hw]
  simp only [signalLoop, Function.update_same]

/-- Branch characterization: `Notify(true)` with an empty park stack and at
least one prepared waiter clears the prepare-count into the epoch, signaling
nobody (line 191's early return). -/
theorem Notify_true_cleared (ns : NState) (h1 : 0 < waiterCount ns.state)
    (h2 : stackField ns.state = kStackMask) :
    Notify true ns =
      some ({ ns with
              state := add64 (add64 (epochMasked ns.state)
                (kEpochInc * waiterCount ns.state)) kStackMask }, []) := by
  have hguard : ¬ (stackField ns.state = kStackMask ∧ waiterCount ns.state = 0) := by
    rintro ⟨-, h⟩
    omega
  rw [Notify]
  rw [if_neg hguard]
  rw [if_pos rfl]
  rw [if_pos h2]

/-- The `next_` links of a well-formed park chain listed top (stack head)
first: each node links to its successor and the bottom node links to null. -/
def chainNexts (next : Nat → Option Nat) : List Nat → Prop
  | [] => True
  | [x] => next x = none
  | x :: y :: r => next x = some y ∧ chainNexts next (y :: r)

/-- The model state holds exactly the waiters of `l` parked, `l` listed from
the top of the stack (most recently parked first) downwards. -/
def parkedChain (ns : NState) (l : List Nat) : Prop :=
  (match l with
   | [] => stackField ns.state = kStackMask
   | h :: _ => stackField ns.state = h) ∧
  chainNexts ns.next l ∧ ∀ x ∈ l, x < kStackMask

/-- The model state after `Notify(false)` pops parked waiter `h` whose
`next_` link denoted `nx` (`kStackMask` for null): epoch bits kept, `nx`
installed as the stack field, `h`'s link nulled, its signal word Signaled. -/
def popState (ns : NState) (h nx : Nat) : NState :=
  { ns with
    state := add64 (epochMasked ns.state) nx,
    next := Function.update ns.next h none,
    sig := Function.update ns.sig h kSignaled }

/-- Branch characterization: `Notify(false)` pop of the bottom waiter (null link). -/
theorem Notify_false_pop_none (ns : NState) (h0 : waiterCount ns.state = 0)
    (hh : stackField ns.state ≠ kStackMask)
    (hnx : ns.next (stackField ns.state) = none) :
    Notify false ns =
      some (popState ns (stackField ns.state) kStackMask, [stackField ns.state]) := by
  rw [Notify_false_pop ns h0 hh, hnx]
  rfl

/-- Branch characterization: `Notify(false)` pop of a waiter linking to `j`. -/
theorem Notify_false_pop_some (ns : NState) (j : Nat) (h0 : waiterCount ns.state = 0)
    (hh : stackField ns.state ≠ kStackMask)
    (hnx : ns.next (stackField ns.state) = some j) :
    Notify false ns =
      some (popState ns (stackField ns.state) j, [stackField ns.state]) := by
  rw [Notify_false_pop ns h0 hh, hnx]
  rfl

/-- Field arithmetic of a popped state: still 64 bits, prepare-count zero,
the installed link is the new stack field, and the epoch bits are kept. -/
theorem popState_state_facts (ns : NState) (h nx : Nat) (hnx : nx < 2 ^ 16) :
    (popState ns h nx).state < 2 ^ 64 ∧
    waiterCount (popState ns h nx).state = 0 ∧
    stackField (popState ns h nx).state = nx ∧
    epochField (popState ns h nx).state = epochField ns.state := by
  show add64 (epochMasked ns.state) nx < 2 ^ 64 ∧
    waiterCount (add64 (epochMasked ns.state) nx) = 0 ∧
    stackField (add64 (epochMasked ns.state) nx) = nx ∧
    epochField (add64 (epochMasked ns.state) nx) = epochField ns.state
  unfold waiterCount stackField epochField epochMasked add64
  omega

/-- Nulling the link of a waiter outside a chain preserves the chain. -/
theorem chainNexts_update (next : Nat → Option Nat) (h : Nat) :
    ∀ l : List Nat, h ∉ l → chainNexts next l →
      chainNexts (Function.update next h none) l
  | [], _, _ => trivial
  | [x], hm, hc => by
      have hx : x ≠ h := by
        intro e
        exact hm (by simp [e])
      show Function.update next h none x = none
      rw [Function.update_noteq hx]
      exact hc
  | x :: y :: r, hm, hc => by
      have hx : x ≠ h := by
        intro e
        exact hm (by simp [e])
      have hm2 : h ∉ y :: r := by
        intro e
        exact hm (List.mem_cons_of_mem _ e)
      refine ⟨?_, chainNexts_update next h (y :: r) hm2 hc.2⟩
      show Function.update next h none x = some y
      rw [Function.update_noteq hx]
      exact hc.1

/-- Unfolding one call of the `NotifyN` loop when `Notify(false)` succeeds. -/
theorem notifyNLoop_succ (k : Nat) (ns ns1 : NState) (s1 : List Nat)
    (h : Notify false ns = some (ns1, s1)) :
    notifyNLoop (k + 1) ns =
      match notifyNLoop k ns1 with
      | none => none
      | some (ns2, s2) => some (ns2, s1 ++ s2) := by
  rw [notifyNLoop, h]

/-! ### Claims -/

/-- Claim C1 (code bug).  With waiters 0, 1, 2 parked (chain `2 → 1 → 0`,
no prepared waiters), the signal loop of `Notify(true)` does not set the
signal word of every parked waiter to Signaled exactly once: the iterate is
pinned at waiter 1 forever (so the loop never terminates), waiter 0 is never
visited, and waiter 1 is visited (hence re-signaled) repeatedly — here twice
within the first three iterations. -/
theorem notify_true_does_not_signal_each_parked_waiter_once :
    (∀ k, loopIter exNext3 2 (k + 1) = some 1) ∧
    (∀ k, 0 ∉ loopVisits exNext3 2 k) ∧
    List.count 1 (loopVisits exNext3 2 3) = 2 ∧
    Notify true exNS3 = none := by
  have hstuck : ∀ k, loopIter exNext3 2 (k + 1) = some 1 :=
    loopIter_stuck exNext3 2 1 rfl
  refine ⟨hstuck, ?_, by decide, rfl⟩
  intro k
  simp only [loopVisits, List.mem_filterMap]
  rintro ⟨a, -, ha⟩
  match a with
  | 0 => exact absurd ha (by decide)
  | m + 1 => rw [hstuck m] at ha; exact absurd ha (by decide)

/-- Claim C3, counterexample.  With one parked waiter (index 0, epoch 5,
prepare-count 0), `Notify(false)` resolves that waiter — it completes, pops
it off the stack and sets its signal word to Signaled — yet the epoch field
of the new state word equals the old one, so this resolving transition does
not strictly increase the epoch under the wrap-safe order. -/
theorem notify_false_pop_epoch_unchanged_cex :
    (Notify false exNS1).isSome = true ∧
    sigAfter (Notify false exNS1) 0 = kSignaled ∧
    epochField (stateAfter (Notify false exNS1)) = epochField exNS1.state ∧
    ¬ epochAdvanced exNS1.state (stateAfter (Notify false exNS1)) := by
  refine ⟨rfl, rfl, rfl, ?_⟩
  have hv : stateAfter (Notify false exNS1) = 5 * 2 ^ 32 + kStackMask := rfl
  rw [epochAdvanced, hv]
  decide

/-- Claim C3 (amended).  The commit-to-park transition of `CommitWait`, the
resolving transition of `CancelWait`, and the `Notify` transition that
resolves a prepared waiter each strictly increase the epoch field under the
wrap-safe order; the `Notify(false)` branch that pops a parked waiter off the
stack completes but leaves the epoch field unchanged. -/
theorem epoch_advance_amended (ns : NState) (wi : Nat) (hwi : wi < kStackMask) :
    (0 < waiterCount ns.state →
      toInt64 (sub64 (epochMasked ns.state) (expectedEpoch (ns.wepoch wi))) = 0 →
      epochAdvanced ns.state (CommitWait ns wi).2.state) ∧
    (0 < waiterCount ns.state →
      toInt64 (sub64 (epochMasked ns.state) (expectedEpoch (ns.wepoch wi))) = 0 →
      epochAdvanced ns.state (CancelWait ns wi).2.state) ∧
    (0 < waiterCount ns.state →
      ∃ p, Notify false ns = some p ∧ epochAdvanced ns.state p.1.state) ∧
    (waiterCount ns.state = 0 → stackField ns.state ≠ kStackMask →
      (∀ j, ns.next (stackField ns.state) = some j → j < 2 ^ 16) →
      ∃ p, Notify false ns = some p ∧ epochField p.1.state = epochField ns.state) := by
  have hwi16 : wi < 2 ^ 16 := by
    have hm : kStackMask < 2 ^ 16 := by norm_num [kStackMask]
    omega
  refine ⟨?_, ?_, ?_, ?_⟩
  · intro h1 h2
    rw [CommitWait_parked ns wi h2]
    exact epochAdvanced_succ _ _ (epochField_resolve ns.state wi h1 hwi16).1
  · intro h1 h2
    rw [CancelWait_resolved ns wi h2]
    exact epochAdvanced_succ _ _ (epochField_resolve ns.state wi h1 hwi16).2.1
  · intro h1
    refine ⟨_, Notify_false_prepared ns h1, ?_⟩
    exact epochAdvanced_succ _ _ (epochField_resolve ns.state wi h1 hwi16).2.2
  · intro h1 h2 h3
    refine ⟨_, Notify_false_pop ns h1 h2, ?_⟩
    cases hnx : ns.next (stackField ns.state) with
    | none =>
      show epochField (add64 (epochMasked ns.state) kStackMask) = epochField ns.state
      unfold epochField epochMasked add64 kStackMask
      omega
    | some j =>
      have hj := h3 j hnx
      show epochField (add64 (epochMasked ns.state) j) = epochField ns.state
      unfold epochField epochMasked add64
      omega

/-- Claim C4.  `CommitWait` computes the expected epoch from the waiter's
snapshot (`expectedEpoch`: the snapshot's epoch bits plus its prepare-count
bits promoted into epoch position) and compares it to the current epoch with
the wrap-safe signed-difference comparison.  When current > expected it
returns immediately, leaving the state word and all `next_` links untouched;
when current = expected it parks: one transition that decrements the
prepare-count by one unit, increments the epoch by one unit, points the
waiter's `next_` link at the previous stack head (or null for the empty
sentinel), and writes the waiter's index into the stack field. -/
theorem commitWait_branches (ns : NState) (wi : Nat)
    (hs : ns.state < 2 ^ 64) (hwi : wi < kStackMask)
    (hw : 0 < waiterCount ns.state) :
    (0 < toInt64 (sub64 (epochMasked ns.state) (expectedEpoch (ns.wepoch wi))) →
      (CommitWait ns wi).1 = CommitOutcome.immediate ∧
      (CommitWait ns wi).2.state = ns.state ∧
      (CommitWait ns wi).2.next = ns.next) ∧
    (toInt64 (sub64 (epochMasked ns.state) (expectedEpoch (ns.wepoch wi))) = 0 →
      (CommitWait ns wi).1 = CommitOutcome.parked ∧
      waiterCount (CommitWait ns wi).2.state = waiterCount ns.state - 1 ∧
      epochField (CommitWait ns wi).2.state = (epochField ns.state + 1) % 2 ^ 32 ∧
      stackField (CommitWait ns wi).2.state = wi ∧
      (CommitWait ns wi).2.next wi =
        (if stackField ns.state = kStackMask then none
         else some (stackField ns.state))) := by
  have hwi16 : wi < 2 ^ 16 := by
    have hm : kStackMask < 2 ^ 16 := by norm_num [kStackMask]
    omega
  constructor
  · intro h
    rw [CommitWait_immediate ns wi h]
    exact ⟨rfl, rfl, rfl⟩
  · intro h
    rw [CommitWait_parked ns wi h]
    refine ⟨rfl, ?_, ?_, ?_, ?_⟩
    · show waiterCount (add64 (sub64 ns.state kWaiterInc) kEpochInc / 2 ^ 16 * 2 ^ 16 + wi) =
        waiterCount ns.state - 1
      unfold waiterCount at hw
      unfold waiterCount add64 sub64 kWaiterInc kEpochInc
      omega
    · exact (epochField_resolve ns.state wi hw hwi16).1
    · show stackField (add64 (sub64 ns.state kWaiterInc) kEpochInc / 2 ^ 16 * 2 ^ 16 + wi) = wi
      unfold stackField add64 sub64 kWaiterInc kEpochInc
      omega
    · exact Function.update_same _ _ _

/-- A state word with epoch 3, one announced (prepared) waiter and an empty
park stack; waiter 0's snapshot was taken just before the prepare-count
increment, so its expected epoch equals the current epoch. -/
def exPrep : NState :=
  { state := 3 * 2 ^ 32 + 2 ^ 16 + kStackMask,
    next := fun _ => none,
    sig := fun _ => 0,
    wepoch := fun i => if i = 0 then 3 * 2 ^ 32 + kStackMask else 0 }

/-- Witness for `commitWait_branches` at a concrete prepared waiter. -/
theorem commitWait_branches_witness :
    (CommitWait exPrep 0).1 = CommitOutcome.parked ∧
    waiterCount (CommitWait exPrep 0).2.state = waiterCount exPrep.state - 1 ∧
    epochField (CommitWait exPrep 0).2.state = (epochField exPrep.state + 1) % 2 ^ 32 ∧
    stackField (CommitWait exPrep 0).2.state = 0 ∧
    (CommitWait exPrep 0).2.next 0 =
      (if stackField exPrep.state = kStackMask then none
       else some (stackField exPrep.state)) :=
  (commitWait_branches exPrep 0 (by decide) (by decide) (by decide)).2 (by decide)

/-- Claim C5.  `CancelWait` directly after `PrepareWait` on the same waiter,
with no intervening `Notify` (and no other announced waiter, so the
prepare-count field is zero), resolves and leaves every externally observable
part of the notifier — the stack field, the prepare-count field, the `next_`
links and the signal words — exactly as if `PrepareWait` had never been
called; only the (unobservable) epoch generation differs. -/
theorem prepare_cancel_roundtrip (ns : NState) (wi : Nat)
    (hs : ns.state < 2 ^ 64) (hw : waiterCount ns.state = 0) :
    (CancelWait (PrepareWait ns wi) wi).1 = CancelOutcome.resolved ∧
    stackField (CancelWait (PrepareWait ns wi) wi).2.state = stackField ns.state ∧
    waiterCount (CancelWait (PrepareWait ns wi) wi).2.state = waiterCount ns.state ∧
    (CancelWait (PrepareWait ns wi) wi).2.next = ns.next ∧
    (CancelWait (PrepareWait ns wi) wi).2.sig = ns.sig := by
  have hwep : (PrepareWait ns wi).wepoch wi = ns.state := Function.update_same _ _ _
  have hstate : (PrepareWait ns wi).state = add64 ns.state kWaiterInc := rfl
  have hd : toInt64 (sub64 (epochMasked (PrepareWait ns wi).state)
      (expectedEpoch ((PrepareWait ns wi).wepoch wi))) = 0 := by
    rw [hstate, hwep]
    have hv : sub64 (epochMasked (add64 ns.state kWaiterInc)) (expectedEpoch ns.state) = 0 := by
      unfold waiterCount at hw
      simp only [sub64, epochMasked, add64, expectedEpoch, kWaiterInc]
      omega
    rw [hv]
    unfold toInt64
    norm_num
  rw [CancelWait_resolved (PrepareWait ns wi) wi hd]
  refine ⟨rfl, ?_, ?_, ?_, ?_⟩
  · show stackField (add64 (sub64 (PrepareWait ns wi).state kWaiterInc) kEpochInc) =
      stackField ns.state
    rw [hstate]
    unfold stackField add64 sub64 kWaiterInc kEpochInc
    omega
  · show waiterCount (add64 (sub64 (PrepareWait ns wi).state kWaiterInc) kEpochInc) =
      waiterCount ns.state
    rw [hstate]
    unfold waiterCount at hw
    unfold waiterCount add64 sub64 kWaiterInc kEpochInc
    omega
  · rw [NState_next_mk]
    simp only [PrepareWait]
  · rw [NState_sig_mk]
    simp only [PrepareWait]

/-- Witness for `prepare_cancel_roundtrip` on a freshly constructed notifier
of capacity 2 and waiter 0. -/
theorem prepare_cancel_roundtrip_witness :
    (CancelWait (PrepareWait (initNS 2) 0) 0).1 = CancelOutcome.resolved ∧
    stackField (CancelWait (PrepareWait (initNS 2) 0) 0).2.state = stackField (initNS 2).state ∧
    waiterCount (CancelWait (PrepareWait (initNS 2) 0) 0).2.state = waiterCount (initNS 2).state ∧
    (CancelWait (PrepareWait (initNS 2) 0) 0).2.next = (initNS 2).next ∧
    (CancelWait (PrepareWait (initNS 2) 0) 0).2.sig = (initNS 2).sig :=
  prepare_cancel_roundtrip (initNS 2) 0 (by decide) (by decide)

/-- Claim C6.  With the waiters of `l` parked (top of stack first, no
prepared waiters), `l.length` sequential `Notify(false)` calls signal exactly
the waiters of `l`, in that LIFO order — each call pops exactly the top of
the park stack and signals only that waiter — leaving an empty stack, a zero
prepare-count, every popped waiter Signaled, and every other signal word
untouched. -/
theorem sequential_notify_lifo : ∀ (l : List Nat) (ns : NState),
    ns.state < 2 ^ 64 → waiterCount ns.state = 0 → parkedChain ns l → l.Nodup →
    ∃ ns2, notifyNLoop l.length ns = some (ns2, l) ∧
      stackField ns2.state = kStackMask ∧
      waiterCount ns2.state = 0 ∧
      (∀ x ∈ l, ns2.sig x = kSignaled) ∧
      (∀ x, x ∉ l → ns2.sig x = ns.sig x) := by
  intro l
  induction l with
  | nil =>
    intro ns hs hcnt hp hnd
    exact ⟨ns, rfl, hp.1, hcnt, by simp, fun x hx => rfl⟩
  | cons h t ih =>
    intro ns hs hcnt hp hnd
    obtain ⟨hhead, hchain, hbound⟩ := hp
    have hmask : kStackMask < 2 ^ 16 := by norm_num [kStackMask]
    have hh : h < kStackMask := hbound h (by simp)
    have hne : stackField ns.state ≠ kStackMask := by
      rw [hhead]
      omega
    have hmem : h ∉ t := (List.nodup_cons.mp hnd).1
    have hndt : t.Nodup := (List.nodup_cons.mp hnd).2
    cases t with
    | nil =>
      have hnx : ns.next h = none := hchain
      have hpop := Notify_false_pop_none ns hcnt hne (by rw [hhead]; exact hnx)
      rw [hhead] at hpop
      obtain ⟨hlt, hcnt1, hstk1, hep1⟩ := popState_state_facts ns h kStackMask (by omega)
      refine ⟨popState ns h kStackMask, ?_, hstk1, hcnt1, ?_, ?_⟩
      · rw [List.length_cons, notifyNLoop_succ _ _ _ _ hpop]
        rfl
      · intro x hx
        have hxh : x = h := by simpa using hx
        subst hxh
        show Function.update ns.sig x kSignaled x = kSignaled
        rw [Function.update_same]
      · intro x hx
        have hxh : x ≠ h := by
          intro e
          exact hx (by simp [e])
        show Function.update ns.sig h kSignaled x = ns.sig x
        rw [Function.update_noteq hxh]
    | cons h2 t2 =>
      obtain ⟨hnx1, hchain2⟩ := hchain
      have hh2 : h2 < kStackMask := hbound h2 (by simp)
      have hpop := Notify_false_pop_some ns h2 hcnt hne (by rw [hhead]; exact hnx1)
      rw [hhead] at hpop
      obtain ⟨hlt, hcnt1, hstk1, hep1⟩ := popState_state_facts ns h h2 (by omega)
      have hp1 : parkedChain (popState ns h h2) (h2 :: t2) := by
        refine ⟨hstk1, ?_, fun x hx => hbound x (List.mem_cons_of_mem _ hx)⟩
        show chainNexts (Function.update ns.next h none) (h2 :: t2)
        exact chainNexts_update ns.next h (h2 :: t2) hmem hchain2
      obtain ⟨ns2, hrun, hstk2, hcnt2, hsig2, hframe2⟩ :=
        ih (popState ns h h2) hlt hcnt1 hp1 hndt
      refine ⟨ns2, ?_, hstk2, hcnt2, ?_, ?_⟩
      · rw [List.length_cons, notifyNLoop_succ _ _ _ _ hpop, hrun]
        rfl
      · intro x hx
        rcases List.mem_cons.mp hx with rfl | hx2
        · rw [hframe2 x hmem]
          show Function.update ns.sig x kSignaled x = kSignaled
          rw [Function.update_same]
        · exact hsig2 x hx2
      · intro x hx
        have hxh : x ≠ h := by
          intro e
          exact hx (by simp [e])
        have hxt : x ∉ h2 :: t2 := fun e => hx (List.mem_cons_of_mem _ e)
        rw [hframe2 x hxt]
        show Function.update ns.sig h kSignaled x = ns.sig x
        rw [Function.update_noteq hxh]

/-- Witness for `sequential_notify_lifo`: the two-waiter chain `1 → 0`. -/
theorem sequential_notify_lifo_witness :
    ∃ ns2, notifyNLoop ([1, 0] : List Nat).length exNS2 = some (ns2, [1, 0]) ∧
      stackField ns2.state = kStackMask ∧
      waiterCount ns2.state = 0 ∧
      (∀ x ∈ ([1, 0] : List Nat), ns2.sig x = kSignaled) ∧
      (∀ x, x ∉ ([1, 0] : List Nat) → ns2.sig x = exNS2.sig x) :=
  sequential_notify_lifo [1, 0] exNS2 (by decide) (by decide)
    ⟨by decide, ⟨rfl, rfl⟩, by decide⟩ (by decide)

/-- Claim C2 (code bug).  With waiters 0 and 1 parked (chain `1 → 0`), the
signal loop that `Notify(true)` runs after its successful CAS never reaches a
null iterate — `loop_next` is re-read from the popped head each iteration —
so the loop does not terminate (`Notify true` has no defined result). -/
theorem notify_true_walk_nonterminating :
    (∀ k, loopIter exNext2 1 (k + 1) = some 0) ∧ Notify true exNS2 = none :=
  ⟨loopIter_stuck exNext2 1 0 rfl, rfl⟩

/-- A diverged `NotifyN` run stays diverged under further `Notify(false)`
calls. -/
theorem stepFalse_none_iter (n : Nat) : stepFalse^[n] none = none := by
  induction n with
  | zero => rfl
  | succ m ih => rw [Function.iterate_succ_apply, show stepFalse none = none from rfl, ih]

/-- One accumulated `Notify(false)` call when the call diverges. -/
theorem stepFalse_some_none (ns : NState) (sigs : List Nat)
    (h : Notify false ns = none) : stepFalse (some (ns, sigs)) = none := by
  simp only [stepFalse, h]

/-- One accumulated `Notify(false)` call when the call succeeds. -/
theorem stepFalse_some_some (ns ns1 : NState) (sigs s1 : List Nat)
    (h : Notify false ns = some (ns1, s1)) :
    stepFalse (some (ns, sigs)) = some (ns1, sigs ++ s1) := by
  simp only [stepFalse, h]

/-- The `NotifyN` loop step when `Notify(false)` diverges. -/
theorem notifyNLoop_succ_none (k : Nat) (ns : NState) (h : Notify false ns = none) :
    notifyNLoop (k + 1) ns = none := by
  rw [notifyNLoop, h]

/-- Iterating single `Notify(false)` calls is the `NotifyN` loop with an
accumulator in front. -/
theorem stepFalse_iterate : ∀ (n : Nat) (ns : NState) (sigs : List Nat),
    stepFalse^[n] (some (ns, sigs)) =
      match notifyNLoop n ns with
      | none => none
      | some (ns2, s2) => some (ns2, sigs ++ s2) := by
  intro n
  induction n with
  | zero =>
    intro ns sigs
    simp [notifyNLoop]
  | succ m ih =>
    intro ns sigs
    rw [Function.iterate_succ_apply]
    cases hn : Notify false ns with
    | none =>
      rw [stepFalse_some_none ns sigs hn, stepFalse_none_iter, notifyNLoop_succ_none m ns hn]
    | some p =>
      obtain ⟨ns1, s1⟩ := p
      rw [stepFalse_some_some ns ns1 sigs s1 hn, ih ns1 (sigs ++ s1),
        notifyNLoop_succ m ns ns1 s1 hn]
      cases hr : notifyNLoop m ns1 with
      | none => rfl
      | some q =>
        obtain ⟨a, b⟩ := q
        simp [List.append_assoc]

/-- The `NotifyN` loop is exactly `n` successive `Notify(false)` calls. -/
theorem notifyNLoop_eq_iterate (n : Nat) (ns : NState) :
    notifyNLoop n ns = stepFalse^[n] (some (ns, [])) := by
  rw [stepFalse_iterate n ns []]
  cases hr : notifyNLoop n ns with
  | none => rfl
  | some p =>
    obtain ⟨a, b⟩ := p
    simp

/-- Claim C7.  For a notifier of capacity `N`: `NotifyN(n)` is `Notify(true)`
when `n ≥ N` and otherwise exactly `n` successive `Notify(false)` calls (the
spec-side reading `notifyNSpec`); in particular `NotifyN(0)` is a no-op. -/
theorem notifyN_refines (N n : Nat) (ns : NState) :
    NotifyN N n ns = notifyNSpec N n ns ∧
    (0 < N → NotifyN N 0 ns = some (ns, [])) := by
  constructor
  · rw [NotifyN, notifyNSpec]
    by_cases hN : N ≤ n
    · rw [if_pos hN, if_pos hN]
    · rw [if_neg hN, if_neg hN]
      exact notifyNLoop_eq_iterate n ns
  · intro hN
    have h0 : ¬ N ≤ 0 := by omega
    rw [NotifyN, if_neg h0]
    rfl

/-- Witness for `notifyN_refines` at capacity 1 and `n = 0`. -/
theorem notifyN_refines_witness : NotifyN 1 0 exNS1 = some (exNS1, []) :=
  (notifyN_refines 1 0 exNS1).2 (by norm_num)

/-- Witness for `epoch_advance_amended`: one announced waiter resolved by a
prepared-waiter `Notify(false)`. -/
theorem epoch_advance_amended_witness :
    ∃ p, Notify false exPrep = some p ∧ epochAdvanced exPrep.state p.1.state :=
  (epoch_advance_amended exPrep 0 (by decide)).2.2.1 (by decide)

/-- Claim C9.  The destructor's assertion fails exactly when the prepare-count
field is nonzero or the stack field differs from the all-ones empty sentinel;
and a fully resolved prepare/commit/notify round on a fresh notifier of
capacity 2 leaves a state satisfying the assertion. -/
theorem dtor_assert_characterization :
    (∀ s : Nat, s < 2 ^ 64 →
      (¬ dtorAssert s ↔ (waiterCount s ≠ 0 ∨ stackField s ≠ kStackMask))) ∧
    dtorAssert (initNS 2).state ∧
    (∃ p, Notify false (CommitWait (PrepareWait (initNS 2) 0) 0).2 = some p ∧
      dtorAssert p.1.state) := by
  refine ⟨?_, ?_, ?_⟩
  · intro s hs
    unfold dtorAssert waiterCount stackField kStackMask
    omega
  · show (initNS 2).state % 2 ^ 32 = kStackMask
    decide
  · have hwep : (PrepareWait (initNS 2) 0).wepoch 0 = (initNS 2).state := by
      simp only [PrepareWait]
      rw [NState_wepoch_mk, Function.update_same]
    have hstate : (PrepareWait (initNS 2) 0).state = add64 (initNS 2).state kWaiterInc := rfl
    have hd : toInt64 (sub64 (epochMasked (PrepareWait (initNS 2) 0).state)
        (expectedEpoch ((PrepareWait (initNS 2) 0).wepoch 0))) = 0 := by
      rw [hstate, hwep]
      decide
    have hcw := CommitWait_parked (PrepareWait (initNS 2) 0) 0 hd
    have hcnt : waiterCount (CommitWait (PrepareWait (initNS 2) 0) 0).2.state = 0 := by
      rw [hcw]
      decide
    have hne : stackField (CommitWait (PrepareWait (initNS 2) 0) 0).2.state ≠ kStackMask := by
      rw [hcw]
      decide
    have hnx : (CommitWait (PrepareWait (initNS 2) 0) 0).2.next
        (stackField (CommitWait (PrepareWait (initNS 2) 0) 0).2.state) = none := by
      rw [hcw]
      decide
    have hfin := Notify_false_pop_none (CommitWait (PrepareWait (initNS 2) 0) 0).2 hcnt hne hnx
    refine ⟨_, hfin, ?_⟩
    show (popState (CommitWait (PrepareWait (initNS 2) 0) 0).2
        (stackField (CommitWait (PrepareWait (initNS 2) 0) 0).2.state) kStackMask).state %
        2 ^ 32 = kStackMask
    rw [hcw]
    decide

/-- Witness for `dtor_assert_characterization`: a state with one announced
waiter fails the destructor's assertion. -/
theorem dtor_assert_characterization_witness : ¬ dtorAssert (2 ^ 16) :=
  (dtor_assert_characterization.1 (2 ^ 16) (by norm_num)).mpr (Or.inl (by decide))

/-- Claim C10.  The constructor's capacity assertion holds exactly for
capacities up to 65534 (65535, the all-ones index, is reserved as the
empty-stack sentinel), and `GetWaiter` returns the slot for every index below
the capacity and null from the capacity upwards. -/
theorem ctor_capacity_getWaiter :
    (∀ N : Nat, ctorAssert N ↔ N ≤ 65534) ∧
    (∀ N idx : Nat, idx < N → GetWaiter N idx = some idx) ∧
    (∀ N idx : Nat, N ≤ idx → GetWaiter N idx = none) := by
  refine ⟨?_, ?_, ?_⟩
  · intro N
    unfold ctorAssert
    omega
  · intro N idx h
    unfold GetWaiter
    rw [if_pos h]
  · intro N idx h
    have h2 : ¬ idx < N := by omega
    unfold GetWaiter
    rw [if_neg h2]

/-- Witness for `ctor_capacity_getWaiter` at capacity 2. -/
theorem ctor_capacity_getWaiter_witness :
    GetWaiter 2 1 = some 1 ∧ GetWaiter 2 5 = none :=
  ⟨ctor_capacity_getWaiter.2.1 2 1 (by norm_num),
   ctor_capacity_getWaiter.2.2 2 5 (by norm_num)⟩

end Shanzhai
